import Mathlib

/-!
Verification of the metric-collector repository (input-tracker.py /
metric-collector.py): a shallow embedding of the counter state machine,
its event handlers and its persistence protocol, with theorems settling
the specified properties.

Modelling conventions:
* Python `dict` objects (insertion-ordered, string keys, integer counts)
  are association lists `List (String × Nat)`; `dictSet` replaces in place
  or appends, `dictUpdate` is Python `dict.update`.
* The durable `key_presses` table is an association list
  `List (String × Nat × String)` of rows (input_name, press_count,
  last_updated); `upsertRow` is `INSERT ... ON CONFLICT DO UPDATE`,
  `insertIfAbsent` is `INSERT ... ON CONFLICT DO NOTHING`.
* A raw key event is either a character key (pynput `KeyCode`, carrying
  `key.char`) or a named key (pynput `Key`, whose `str(key)` is
  `Key.<name>`); `keyStr` is the resolution expression
  `key.char if hasattr(key, 'char') else str(key).replace('Key.', '')`.
* Console prints and database writes appear as an `Output` trace;
  termination via `os._exit`, normal continuation, and an escaping
  exception are the three `HandlerResult`s.  A database failure while
  saving (psycopg2 raising in `connect`) is the `db_ok = false` case.
-/

namespace MC

/-- The SPECIAL_KEYS set of input-tracker.py lines 14-23 (listed in source
order; only membership matters, Python iterates sets in arbitrary order). -/
def SPECIAL_KEYS : List String :=
  ["shift", "shift_r", "shift_l", "ctrl", "ctrl_r", "ctrl_l",
   "alt", "alt_r", "alt_l", "cmd", "cmd_r", "cmd_l",
   "enter", "backspace", "delete", "space", "tab", "caps_lock",
   "esc", "up", "down", "left", "right",
   "page_up", "page_down", "home", "end",
   "insert", "num_lock", "scroll_lock",
   "f1", "f2", "f3", "f4", "f5", "f6",
   "f7", "f8", "f9", "f10", "f11", "f12"]

/-- The REGULAR_KEYS set of input-tracker.py lines 25-33 (the apostrophe and
brace characters are written with \xNN escapes). -/
def REGULAR_KEYS : List String :=
  ["a", "b", "c", "d", "e", "f", "g", "h", "i", "j",
   "k", "l", "m", "n", "o", "p", "q", "r", "s", "t",
   "u", "v", "w", "x", "y", "z",
   "0", "1", "2", "3", "4", "5", "6", "7", "8", "9",
   "`", "-", "=", "[", "]", "\\", ";", "\x27", ",", ".", "/",
   "~", "!", "@", "\x23", "$", "%", "^", "&", "*", "(", ")",
   "_", "+", "\x7b", "\x7d", "|", ":", "\"", "<", ">", "?"]

/-- MOUSE_BUTTONS, input-tracker.py line 35. -/
def MOUSE_BUTTONS : List String := ["mouse_left", "mouse_right", "mouse_middle"]

/-- ALL_INPUTS = SPECIAL_KEYS ∪ REGULAR_KEYS ∪ MOUSE_BUTTONS (line 36);
the three sets are pairwise disjoint, so list concatenation models the
union faithfully for membership. -/
def ALL_INPUTS : List String := SPECIAL_KEYS ++ REGULAR_KEYS ++ MOUSE_BUTTONS

/-- A Python dict from input identifier to count, as an insertion-ordered
association list. -/
abbrev Dict := List (String × Nat)

/-- Python `d[k]` lookup / `k in d` support: first (unique) binding of `k`. -/
def dictGet : Dict → String → Option Nat
  | [], _ => none
  | (k, v) :: rest, key => if k = key then some v else dictGet rest key

/-- Python `d.get(k, dflt)`. -/
def dictGetD (d : Dict) (key : String) (dflt : Nat) : Nat :=
  (dictGet d key).getD dflt

/-- Python `k in d`. -/
def dictMem (d : Dict) (key : String) : Bool :=
  (dictGet d key).isSome

/-- Python `d[k] = v`: replace the binding in place if present, else append. -/
def dictSet : Dict → String → Nat → Dict
  | [], key, v => [(key, v)]
  | (k, w) :: rest, key, v =>
    if k = key then (k, v) :: rest else (k, w) :: dictSet rest key v

/-- Python `d.update(e)`: set every binding of `e` into `d`, in order. -/
def dictUpdate (d : Dict) (e : Dict) : Dict :=
  e.foldl (fun acc kv => dictSet acc kv.1 kv.2) d

/-- Python `d[k] += 1` on a key that is present (the handlers only run it on
present keys; on an absent key Python would raise KeyError, modelled as
leaving the dict unchanged, a case unreachable from the program's states). -/
def dictIncr : Dict → String → Dict
  | [], _ => []
  | (k, v) :: rest, key =>
    if k = key then (k, v + 1) :: rest else (k, v) :: dictIncr rest key

/-- Python `s.startswith(pre)` for the ASCII identifiers used here. -/
def strStartsWith (s pre : String) : Bool :=
  pre.data.isPrefixOf s.data

/-- The Metrics dataclass (input-tracker.py lines 39-52): the in-memory
counter table plus the last-updated stamp (None before the first flush). -/
structure Metrics where
  input_counts : Dict
  last_updated : Option String
  deriving DecidableEq

/-- `sum(count for key, count in input_counts.items() if not
key.startswith("mouse_"))` from Metrics.__str__ (line 51). -/
def totalKeyPresses (d : Dict) : Nat :=
  ((d.filter fun kv => ! strStartsWith kv.1 "mouse_").map Prod.snd).sum

/-- The durable key_presses table: rows (input_name, press_count,
last_updated), primary key input_name. -/
abbrev Store := List (String × Nat × String)

/-- `SELECT ... WHERE input_name = id` (primary-key lookup). -/
def storeGet : Store → String → Option (Nat × String)
  | [], _ => none
  | (k, c, t) :: rest, key => if k = key then some (c, t) else storeGet rest key

/-- The persisted count for an identifier, 0 when no row exists. -/
def storeCountD (s : Store) (key : String) : Nat :=
  match storeGet s key with
  | some p => p.1
  | none => 0

/-- `INSERT ... VALUES (k, v, t) ON CONFLICT (input_name) DO UPDATE SET
press_count = EXCLUDED.press_count, last_updated = EXCLUDED.last_updated`
(save_data, input-tracker.py lines 94-101). -/
def upsertRow : Store → String → Nat → String → Store
  | [], key, v, t => [(key, v, t)]
  | (k, c, u) :: rest, key, v, t =>
    if k = key then (k, v, t) :: rest else (k, c, u) :: upsertRow rest key v t

/-- `INSERT ... VALUES (id, 0, NOW()) ON CONFLICT (input_name) DO NOTHING`
(_initialize_inputs, input-tracker.py lines 110-116). -/
def insertIfAbsent (s : Store) (key : String) (t : String) : Store :=
  if (storeGet s key).isSome then s else s ++ [(key, 0, t)]

/-- Database._initialize_inputs (input-tracker.py lines 108-117): one
conflict-ignoring insert per vocabulary identifier, at timestamp `t`. -/
def initialize_inputs (s : Store) (t : String) : Store :=
  ALL_INPUTS.foldl (fun acc id => insertIfAbsent acc id t) s

/-- Database.load_data (input-tracker.py lines 82-87):
`SELECT input_name, press_count FROM key_presses` as a dict. -/
def load_data (s : Store) : Dict :=
  s.map fun r => (r.1, r.2.1)

/-- The row loop of Database.save_data (input-tracker.py lines 93-101): one
upsert per entry of the counts dict, all stamped `now`. -/
def save_data_store (s : Store) (counts : Dict) (now : String) : Store :=
  counts.foldl (fun acc kv => upsertRow acc kv.1 kv.2 now) s

/-- A raw pynput key event: a character key (KeyCode with `.char`) or a
named key (`Key.<name>`). -/
inductive Key where
  | char (c : String)
  | named (n : String)
  deriving DecidableEq

/-- `key.char if hasattr(key, 'char') else str(key).replace('Key.', '')`
(input-tracker.py line 158). -/
def keyStr : Key → String
  | .char c => c
  | .named n => n

/-- A pynput mouse button; `other` stands for any button that is not
left/right/middle. -/
inductive MouseButton where
  | left
  | right
  | middle
  | other
  deriving DecidableEq

/-- A raw input event delivered by the listeners. -/
inductive Event where
  | keyPress (k : Key)
  | click (b : MouseButton) (pressed : Bool)
  deriving DecidableEq

/-- An observable effect of a handler: a console print or the batched
database write of a flush. -/
inductive Output where
  | unknownKey (s : String)
  | stopping
  | summary (left right middle total : Nat) (lastUpdated : Option String)
  | flushWrite (counts : Dict) (ts : String)
  deriving DecidableEq

/-- How a handler invocation ends: return normally, terminate the process
via `os._exit code`, or let an exception escape. -/
inductive HandlerResult where
  | cont
  | exited (code : Nat)
  | raised
  deriving DecidableEq

/-- True exactly for `os._exit c` with a non-zero `c`. -/
def isNonzeroExit : HandlerResult → Bool
  | .exited c => c != 0
  | _ => false

/-- The session summary print `print(..., metrics)` via Metrics.__str__
(input-tracker.py lines 44-52). -/
def summaryOf (m : Metrics) : Output :=
  .summary (dictGetD m.input_counts "mouse_left" 0)
    (dictGetD m.input_counts "mouse_right" 0)
    (dictGetD m.input_counts "mouse_middle" 0)
    (totalKeyPresses m.input_counts) m.last_updated

/-- The mutable session state: the Metrics object and the durable store. -/
structure Sys where
  metrics : Metrics
  store : Store
  deriving DecidableEq

/-- Database.save_data (input-tracker.py lines 89-106): stamp the metrics
with `now`, upsert every counter row, and report the write.  The `db_ok =
false` failure case (psycopg2 raising in `connect()`) happens before any
of this runs and is handled at the call sites. -/
def save_data (s : Store) (m : Metrics) (now : String) :
    Store × Metrics × Output :=
  let m2 := { m with last_updated := some now }
  (save_data_store s m2.input_counts now, m2,
   Output.flushWrite m2.input_counts now)

/-- The on_press handler of input-tracker.py lines 157-169: resolve the
key, increment its counter when it is tracked (else print the unknown-key
diagnostic), and on escape print the summary, save, and `os._exit(0)`.
With `db_ok = false` the save raises, so `os._exit(0)` is never reached. -/
def on_press (db_ok : Bool) (now : String) (sys : Sys) (key : Key) :
    Sys × List Output × HandlerResult :=
  let key_str := keyStr key
  let m := sys.metrics
  let counts :=
    if dictMem m.input_counts key_str then dictIncr m.input_counts key_str
    else m.input_counts
  let diag : List Output :=
    if dictMem m.input_counts key_str then []
    else [Output.unknownKey key_str]
  let m2 : Metrics := { m with input_counts := counts }
  if key = Key.named "esc" then
    let outs := diag ++ [Output.stopping, summaryOf m2]
    if db_ok then
      let saved := save_data sys.store m2 now
      ({ metrics := saved.2.1, store := saved.1 },
       outs ++ [saved.2.2], .exited 0)
    else
      ({ metrics := m2, store := sys.store }, outs, .raised)
  else
    ({ metrics := m2, store := sys.store }, diag, .cont)

/-- InputTracker._on_key_press of metric-collector.py lines 172-183: same
as on_press but with no unknown-key diagnostic branch. -/
def on_key_press_mc (db_ok : Bool) (now : String) (sys : Sys) (key : Key) :
    Sys × List Output × HandlerResult :=
  let key_str := keyStr key
  let m := sys.metrics
  let counts :=
    if dictMem m.input_counts key_str then dictIncr m.input_counts key_str
    else m.input_counts
  let m2 : Metrics := { m with input_counts := counts }
  if key = Key.named "esc" then
    let outs := [Output.stopping, summaryOf m2]
    if db_ok then
      let saved := save_data sys.store m2 now
      ({ metrics := saved.2.1, store := saved.1 },
       outs ++ [saved.2.2], .exited 0)
    else
      ({ metrics := m2, store := sys.store }, outs, .raised)
  else
    ({ metrics := m2, store := sys.store }, [], .cont)

/-- The on_click handler (input-tracker.py lines 172-179): on a press of
left/right/middle, increment that button's counter; releases and other
buttons are ignored. -/
def on_click (sys : Sys) (button : MouseButton) (pressed : Bool) : Sys :=
  if pressed then
    match button with
    | .left =>
      { sys with metrics :=
          { sys.metrics with
            input_counts := dictIncr sys.metrics.input_counts "mouse_left" } }
    | .right =>
      { sys with metrics :=
          { sys.metrics with
            input_counts := dictIncr sys.metrics.input_counts "mouse_right" } }
    | .middle =>
      { sys with metrics :=
          { sys.metrics with
            input_counts := dictIncr sys.metrics.input_counts "mouse_middle" } }
    | .other => sys
  else sys

/-- Dispatch one raw event to its handler (keyboard events to on_press,
mouse events to on_click, which never prints and never exits). -/
def handleEvent (db_ok : Bool) (now : String) (sys : Sys) :
    Event → Sys × List Output × HandlerResult
  | .keyPress k => on_press db_ok now sys k
  | .click b pressed => (on_click sys b pressed, [], .cont)

/-- Run a sequence of raw events through the handlers, accumulating the
output trace and stopping at the first event whose handler does not return
normally (after `os._exit` or an escaping exception no further event is
processed). -/
def processEvents (db_ok : Bool) (now : String) (sys : Sys) :
    List Event → Sys × List Output × HandlerResult
  | [] => (sys, [], .cont)
  | e :: rest =>
    let r := handleEvent db_ok now sys e
    match r.2.2 with
    | .cont =>
      let r2 := processEvents db_ok now r.1 rest
      (r2.1, r.2.1 ++ r2.2.1, r2.2.2)
    | .exited c => (r.1, r.2.1, .exited c)
    | .raised => (r.1, r.2.1, .raised)

/-- `{key: 0 for key in ALL_INPUTS}` (input-tracker.py line 134). -/
def init_counts : Dict := ALL_INPUTS.map fun k => (k, 0)

/-- The store right after startup bootstrap on a fresh database:
_initialize_inputs applied to an empty table at timestamp T0. -/
def initStore : Store := initialize_inputs [] "T0"

/-- A freshly started session: all counters 0, no flush yet, bootstrapped
store. -/
def sys0 : Sys :=
  { metrics := { input_counts := init_counts, last_updated := none },
    store := initStore }

/-- A dict has the no-duplicate-keys property every Python dict enjoys. -/
def nodupKeys (d : Dict) : Prop := (d.map Prod.fst).Nodup

instance (d : Dict) : Decidable (nodupKeys d) := by
  unfold nodupKeys; infer_instance

/-- The row loop of save_data when it runs concurrently with the listener
threads: save_data iterates `data.input_counts.items()` of the LIVE dict
(no lock is taken and no copy is made), so between two row upserts the
event handlers may increment counters.  `flushLive ks muts d` reads key
after key from the evolving table, applying the batch `muts i` of
increments just before the i-th read. -/
def flushLive : List String → List (List String) → Dict → List (String × Nat)
  | [], _, _ => []
  | k :: ks, muts, d =>
    let d2 := (muts.headD []).foldl dictIncr d
    (k, dictGetD d2 k 0) :: flushLive ks muts.tail d2

/-- Every instantaneous state the counter table passes through during a
`flushLive` run: the initial table and the table after each increment
batch. -/
def liveStates : List String → List (List String) → Dict → List Dict
  | [], _, d => [d]
  | _ :: ks, muts, d =>
    let d2 := (muts.headD []).foldl dictIncr d
    d :: liveStates ks muts.tail d2

/-- save_data's row loop over the live dict `d` (its own keys, in order)
with concurrent increment batches `muts`: the (identifier, count) pairs
actually written to the store. -/
def save_data_live (d : Dict) (muts : List (List String)) :
    List (String × Nat) :=
  flushLive (d.map Prod.fst) muts d

/-- One increment of the first two tracked keys, arriving between the
flush loop's first and second row reads. -/
def mexBatches : List (List String) := [[], ["shift", "shift_r"]]

/-- The specified scenario: press the a key three times, left-click twice,
press escape. -/
def scenarioEvents : List Event :=
  [Event.keyPress (Key.char "a"), Event.keyPress (Key.char "a"),
   Event.keyPress (Key.char "a"),
   Event.click MouseButton.left true, Event.click MouseButton.left true,
   Event.keyPress (Key.named "esc")]

/-- The scenario executed from a fresh session with a working database. -/
def scenarioRun : Sys × List Output × HandlerResult :=
  processEvents true "T1" sys0 scenarioEvents

/-- Extract the (left, right, middle, totalKeyPresses) fields of a session
summary print. -/
def summaryData : Output → Option (Nat × Nat × Nat × Nat)
  | .summary l r m t _ => some (l, r, m, t)
  | _ => none

/-- Recognize the flush write in an output trace. -/
def isFlushOutput : Output → Bool
  | .flushWrite _ _ => true
  | _ => false

/-- Recognize the session summary print in an output trace. -/
def isSummaryOutput : Output → Bool
  | .summary _ _ _ _ _ => true
  | _ => false

/-! ## Lemmas about the dict operations -/

theorem dictGet_dictSet (d : Dict) (k : String) (v : Nat) (id : String) :
    dictGet (dictSet d k v) id = if id = k then some v else dictGet d id := by
  induction d with
  | nil =>
    simp only [dictSet, dictGet]
    split <;> split <;> first | rfl | (exfalso; simp_all [eq_comm])
  | cons hd tl ih =>
    obtain ⟨k1, v1⟩ := hd
    simp only [dictSet]
    split
    · rename_i hk
      subst hk
      simp only [dictGet]
      split <;> split <;> first | rfl | (exfalso; simp_all [eq_comm])
    · rename_i hk
      simp only [dictGet, ih]
      split <;> split <;>
        first
          | rfl
          | (rename_i h1 h2; exact absurd (h1.trans h2) hk)

theorem dictGet_dictIncr (d : Dict) (k : String) (id : String) :
    dictGet (dictIncr d k) id =
      if id = k then (dictGet d k).map (· + 1) else dictGet d id := by
  induction d with
  | nil =>
    simp only [dictIncr, dictGet]
    split <;> rfl
  | cons hd tl ih =>
    obtain ⟨k1, v1⟩ := hd
    simp only [dictIncr]
    by_cases hk : k1 = k
    · subst hk
      rw [if_pos rfl]
      simp only [dictGet]
      by_cases h : id = k1
      · subst h
        simp [dictGet]
      · rw [if_neg (fun h2 : k1 = id => h h2.symm), if_neg h,
          if_neg (fun h2 : k1 = id => h h2.symm)]
    · rw [if_neg hk]
      simp only [dictGet, ih]
      by_cases h : k1 = id
      · subst h
        rw [if_pos rfl, if_neg (fun h2 : k1 = k => hk h2), if_pos rfl]
      · rw [if_neg h]
        by_cases h2 : id = k
        · rw [if_pos h2, if_pos h2, if_neg hk]
        · rw [if_neg h2, if_neg h2, if_neg h]

theorem dictIncr_map_fst (d : Dict) (k : String) :
    (dictIncr d k).map Prod.fst = d.map Prod.fst := by
  induction d with
  | nil => rfl
  | cons hd tl ih =>
    obtain ⟨k1, v1⟩ := hd
    by_cases h : k1 = k <;> simp [dictIncr, h, ih]

theorem dictGet_eq_none_iff (d : Dict) (id : String) :
    dictGet d id = none ↔ id ∉ d.map Prod.fst := by
  induction d with
  | nil => simp [dictGet]
  | cons hd tl ih =>
    obtain ⟨k1, v1⟩ := hd
    by_cases h : k1 = id
    · subst h; simp [dictGet]
    · simp only [dictGet]
      rw [if_neg h, ih]
      simp only [List.map_cons, List.mem_cons]
      constructor
      · intro hni hmem
        rcases hmem with h1 | h2
        · exact h h1.symm
        · exact hni h2
      · intro hni h2
        exact hni (Or.inr h2)

theorem dictGetD_dictIncr_ge (d : Dict) (k : String) (id : String) :
    dictGetD d id 0 ≤ dictGetD (dictIncr d k) id 0 := by
  unfold dictGetD
  rw [dictGet_dictIncr]
  by_cases h : id = k
  · subst h
    cases hg : dictGet d id <;> simp [hg]
  · simp [h]

theorem dictUpdate_get (d : Dict) (e : Dict) (id : String)
    (hn : nodupKeys e) :
    dictGet (dictUpdate d e) id =
      match dictGet e id with
      | some v => some v
      | none => dictGet d id := by
  induction e generalizing d with
  | nil => simp [dictUpdate, dictGet]
  | cons hd tl ih =>
    obtain ⟨k1, v1⟩ := hd
    have hn0 : k1 ∉ tl.map Prod.fst ∧ (tl.map Prod.fst).Nodup :=
      List.nodup_cons.mp (by simpa [nodupKeys] using hn)
    have hn1 : k1 ∉ tl.map Prod.fst := hn0.1
    have hn2 : nodupKeys tl := hn0.2
    have hstep : dictUpdate d ((k1, v1) :: tl) =
        dictUpdate (dictSet d k1 v1) tl := by
      simp [dictUpdate]
    rw [hstep, ih _ hn2]
    by_cases h : id = k1
    · subst h
      have hnone : dictGet tl id = none := by
        apply (dictGet_eq_none_iff tl id).2
        simpa using hn1
      have hhead : dictGet ((id, v1) :: tl) id = some v1 := by
        simp [dictGet]
      rw [hnone, hhead, dictGet_dictSet, if_pos rfl]
    · have hcons : dictGet ((k1, v1) :: tl) id = dictGet tl id := by
        simp only [dictGet]
        rw [if_neg (fun h2 : k1 = id => h h2.symm)]
      rw [hcons]
      cases hg : dictGet tl id <;>
        simp [hg, dictGet_dictSet, h]

/-! ## Lemmas about the durable store operations -/

theorem storeGet_upsertRow (s : Store) (k : String) (v : Nat) (t : String)
    (id : String) :
    storeGet (upsertRow s k v t) id =
      if id = k then some (v, t) else storeGet s id := by
  induction s with
  | nil =>
    simp only [upsertRow, storeGet]
    split <;> split <;>
      first
        | rfl
        | (rename_i h1 h2; exact absurd h1.symm h2)
        | (rename_i h1 h2; exact absurd h2.symm h1)
  | cons hd tl ih =>
    obtain ⟨k1, c1, t1⟩ := hd
    simp only [upsertRow]
    by_cases hk : k1 = k
    · subst hk
      rw [if_pos rfl]
      simp only [storeGet]
      by_cases h : id = k1
      · subst h
        rw [if_pos rfl, if_pos rfl]
      · rw [if_neg (fun h2 : k1 = id => h h2.symm), if_neg h,
          if_neg (fun h2 : k1 = id => h h2.symm)]
    · rw [if_neg hk]
      simp only [storeGet, ih]
      by_cases h : k1 = id
      · subst h
        rw [if_pos rfl, if_neg (fun h2 : k1 = k => hk h2), if_pos rfl]
      · rw [if_neg h]
        by_cases h2 : id = k
        · rw [if_pos h2, if_pos h2]
        · rw [if_neg h2, if_neg h2, if_neg h]

theorem storeGet_append (s s2 : Store) (id : String) :
    storeGet (s ++ s2) id =
      match storeGet s id with
      | some p => some p
      | none => storeGet s2 id := by
  induction s with
  | nil => simp [storeGet]
  | cons hd tl ih =>
    obtain ⟨k1, c1, t1⟩ := hd
    by_cases h : k1 = id
    · subst h; simp [storeGet]
    · simp only [List.cons_append, storeGet]
      rw [if_neg h, if_neg h]
      exact ih

theorem upsertRow_absent (s : Store) (k : String) (v : Nat) (t : String)
    (h : storeGet s k = none) :
    upsertRow s k v t = s ++ [(k, v, t)] := by
  induction s with
  | nil => rfl
  | cons hd tl ih =>
    obtain ⟨k1, c1, t1⟩ := hd
    simp only [storeGet] at h
    by_cases hk : k1 = k
    · rw [if_pos hk] at h; exact absurd h (by simp)
    · rw [if_neg hk] at h
      simp only [upsertRow, List.cons_append]
      rw [if_neg hk, ih h]

theorem storeGet_insertIfAbsent_some (s : Store) (k t : String)
    (id : String) (p : Nat × String) (h : storeGet s id = some p) :
    storeGet (insertIfAbsent s k t) id = some p := by
  unfold insertIfAbsent
  split
  · exact h
  · rw [storeGet_append, h]

theorem storeGet_insertIfAbsent_none (s : Store) (k t : String)
    (id : String) (h : storeGet s id = none) :
    storeGet (insertIfAbsent s k t) id =
      if id = k then some (0, t) else none := by
  unfold insertIfAbsent
  by_cases hid : id = k
  · subst hid
    rw [if_pos rfl, if_neg (by simp [h]), storeGet_append, h]
    simp [storeGet]
  · rw [if_neg hid]
    split
    · exact h
    · rw [storeGet_append, h]
      simp only [storeGet]
      rw [if_neg (fun h2 : k = id => hid h2.symm)]

theorem initFold_get_some (ids : List String) (s : Store) (t : String)
    (id : String) (p : Nat × String) (h : storeGet s id = some p) :
    storeGet (ids.foldl (fun acc j => insertIfAbsent acc j t) s) id
      = some p := by
  induction ids generalizing s with
  | nil => exact h
  | cons j rest ih =>
    exact ih _ (storeGet_insertIfAbsent_some s j t id p h)

theorem initFold_get_none (ids : List String) (s : Store) (t : String)
    (id : String) (h : storeGet s id = none) :
    storeGet (ids.foldl (fun acc j => insertIfAbsent acc j t) s) id
      = if id ∈ ids then some (0, t) else none := by
  induction ids generalizing s with
  | nil => simpa using h
  | cons j rest ih =>
    simp only [List.foldl_cons]
    by_cases hj : id = j
    · subst hj
      have h1 : storeGet (insertIfAbsent s id t) id = some (0, t) := by
        rw [storeGet_insertIfAbsent_none s id t id h, if_pos rfl]
      rw [initFold_get_some rest _ t id _ h1]
      simp
    · have h1 : storeGet (insertIfAbsent s j t) id = none := by
        rw [storeGet_insertIfAbsent_none s j t id h, if_neg hj]
      rw [ih _ h1]
      simp [hj]

theorem initFold_fixed (ids : List String) (s : Store) (t : String)
    (h : ∀ j ∈ ids, (storeGet s j).isSome = true) :
    ids.foldl (fun acc j => insertIfAbsent acc j t) s = s := by
  induction ids with
  | nil => rfl
  | cons j rest ih =>
    simp only [List.foldl_cons]
    have hj : insertIfAbsent s j t = s := by
      unfold insertIfAbsent
      rw [if_pos (h j (by simp))]
    rw [hj]
    exact ih fun j2 hj2 => h j2 (by simp [hj2])

theorem save_data_store_cons (s : Store) (k : String) (v : Nat) (tl : Dict)
    (t : String) :
    save_data_store s ((k, v) :: tl) t =
      save_data_store (upsertRow s k v t) tl t := rfl

theorem save_get_none (c : Dict) (s : Store) (t : String) (id : String)
    (h : dictGet c id = none) :
    storeGet (save_data_store s c t) id = storeGet s id := by
  induction c generalizing s with
  | nil => rfl
  | cons hd tl ih =>
    obtain ⟨k1, v1⟩ := hd
    simp only [dictGet] at h
    by_cases hk : k1 = id
    · rw [if_pos hk] at h; exact absurd h (by simp)
    · rw [if_neg hk] at h
      rw [save_data_store_cons, ih _ h, storeGet_upsertRow,
        if_neg (fun h2 : id = k1 => hk h2.symm)]

theorem save_get_some (c : Dict) (s : Store) (t : String) (id : String)
    (v : Nat) (hn : nodupKeys c) (h : dictGet c id = some v) :
    storeGet (save_data_store s c t) id = some (v, t) := by
  induction c generalizing s with
  | nil => simp [dictGet] at h
  | cons hd tl ih =>
    obtain ⟨k1, v1⟩ := hd
    have hn0 : k1 ∉ tl.map Prod.fst ∧ (tl.map Prod.fst).Nodup :=
      List.nodup_cons.mp (by simpa [nodupKeys] using hn)
    simp only [dictGet] at h
    rw [save_data_store_cons]
    by_cases hk : k1 = id
    · subst hk
      rw [if_pos rfl] at h
      have htl : dictGet tl k1 = none := (dictGet_eq_none_iff tl k1).2 hn0.1
      rw [save_get_none tl _ t k1 htl, storeGet_upsertRow, if_pos rfl]
      have hv : v1 = v := by simpa using h
      rw [hv]
    · rw [if_neg hk] at h
      exact ih _ hn0.2 h

theorem save_fresh (c : Dict) (s : Store) (t : String)
    (hd : ∀ kv ∈ c, storeGet s kv.1 = none) (hn : nodupKeys c) :
    save_data_store s c t = s ++ c.map fun kv => (kv.1, kv.2, t) := by
  induction c generalizing s with
  | nil => simp [save_data_store]
  | cons hd0 tl ih =>
    obtain ⟨k1, v1⟩ := hd0
    have hn0 : k1 ∉ tl.map Prod.fst ∧ (tl.map Prod.fst).Nodup :=
      List.nodup_cons.mp (by simpa [nodupKeys] using hn)
    simp only [save_data_store, List.foldl_cons] at *
    have habs : storeGet s k1 = none := hd (k1, v1) (by simp)
    rw [upsertRow_absent s k1 v1 t habs]
    have hd2 : ∀ kv ∈ tl, storeGet (s ++ [(k1, v1, t)]) kv.1 = none := by
      intro kv hkv
      rw [storeGet_append, hd kv (by simp [hkv])]
      have hne : kv.1 ≠ k1 := by
        intro h2
        exact hn0.1 (h2 ▸ List.mem_map_of_mem Prod.fst hkv)
      simp only [storeGet]
      rw [if_neg (fun h2 : k1 = kv.1 => hne h2.symm)]
    rw [ih _ hd2 hn0.2, List.append_assoc]
    rfl

/-! ## Lemmas about the event handlers and the run function -/

theorem on_press_counts (db_ok : Bool) (now : String) (sys : Sys)
    (key : Key) :
    (on_press db_ok now sys key).1.metrics.input_counts =
      if dictMem sys.metrics.input_counts (keyStr key) then
        dictIncr sys.metrics.input_counts (keyStr key)
      else sys.metrics.input_counts := by
  simp only [on_press, save_data]
  split
  · split <;> rfl
  · rfl

theorem on_press_store_untouched (db_ok : Bool) (now : String) (sys : Sys)
    (key : Key) (id : String)
    (h : dictGet sys.metrics.input_counts id = none) :
    storeGet (on_press db_ok now sys key).1.store id =
      storeGet sys.store id := by
  have hc : dictGet
      (if dictMem sys.metrics.input_counts (keyStr key) then
        dictIncr sys.metrics.input_counts (keyStr key)
      else sys.metrics.input_counts) id = none := by
    split
    · rw [dictGet_dictIncr]
      split
      · rename_i he; rw [← he, h]; rfl
      · exact h
    · exact h
  simp only [on_press, save_data]
  split
  · split
    · exact save_get_none _ _ _ _ hc
    · rfl
  · rfl

theorem on_click_store (sys : Sys) (b : MouseButton) (pressed : Bool) :
    (on_click sys b pressed).store = sys.store := by
  unfold on_click
  split
  · cases b <;> rfl
  · rfl

theorem on_click_map_fst (sys : Sys) (b : MouseButton) (pressed : Bool) :
    ((on_click sys b pressed).metrics.input_counts).map Prod.fst =
      sys.metrics.input_counts.map Prod.fst := by
  unfold on_click
  split
  · cases b <;> first | rfl | (exact dictIncr_map_fst _ _)
  · rfl

theorem on_click_mono (sys : Sys) (b : MouseButton) (pressed : Bool)
    (id : String) :
    dictGetD sys.metrics.input_counts id 0 ≤
      dictGetD (on_click sys b pressed).metrics.input_counts id 0 := by
  unfold on_click
  split
  · cases b <;> first | (exact dictGetD_dictIncr_ge _ _ _) | (exact le_refl _)
  · exact le_refl _

theorem handleEvent_map_fst (db : Bool) (now : String) (sys : Sys)
    (e : Event) :
    ((handleEvent db now sys e).1.metrics.input_counts).map Prod.fst =
      sys.metrics.input_counts.map Prod.fst := by
  cases e with
  | keyPress k =>
    show ((on_press db now sys k).1.metrics.input_counts).map Prod.fst = _
    rw [on_press_counts]
    split
    · exact dictIncr_map_fst _ _
    · rfl
  | click b p =>
    show ((on_click sys b p).metrics.input_counts).map Prod.fst = _
    exact on_click_map_fst sys b p

theorem handleEvent_mono (db : Bool) (now : String) (sys : Sys) (e : Event)
    (id : String) :
    dictGetD sys.metrics.input_counts id 0 ≤
      dictGetD (handleEvent db now sys e).1.metrics.input_counts id 0 := by
  cases e with
  | keyPress k =>
    show _ ≤ dictGetD (on_press db now sys k).1.metrics.input_counts id 0
    rw [on_press_counts]
    split
    · exact dictGetD_dictIncr_ge _ _ _
    · exact le_refl _
  | click b p =>
    exact on_click_mono sys b p id

theorem handleEvent_get_none (db : Bool) (now : String) (sys : Sys)
    (e : Event) (id : String)
    (h : dictGet sys.metrics.input_counts id = none) :
    dictGet (handleEvent db now sys e).1.metrics.input_counts id = none := by
  rw [dictGet_eq_none_iff, handleEvent_map_fst]
  exact (dictGet_eq_none_iff _ _).1 h

theorem handleEvent_store_untouched (db : Bool) (now : String) (sys : Sys)
    (e : Event) (id : String)
    (h : dictGet sys.metrics.input_counts id = none) :
    storeGet (handleEvent db now sys e).1.store id = storeGet sys.store id := by
  cases e with
  | keyPress k => exact on_press_store_untouched db now sys k id h
  | click b p =>
    show storeGet (on_click sys b p).store id = _
    rw [on_click_store]

theorem run_map_fst (db : Bool) (now : String) (events : List Event) :
    ∀ sys : Sys,
      ((processEvents db now sys events).1.metrics.input_counts).map Prod.fst
        = sys.metrics.input_counts.map Prod.fst := by
  induction events with
  | nil => intro sys; rfl
  | cons e rest ih =>
    intro sys
    simp only [processEvents]
    split
    · rw [ih _, handleEvent_map_fst]
    · exact handleEvent_map_fst db now sys e
    · exact handleEvent_map_fst db now sys e

theorem run_mono (db : Bool) (now : String) (events : List Event)
    (id : String) :
    ∀ sys : Sys,
      dictGetD sys.metrics.input_counts id 0 ≤
        dictGetD (processEvents db now sys events).1.metrics.input_counts
          id 0 := by
  induction events with
  | nil => intro sys; exact le_refl _
  | cons e rest ih =>
    intro sys
    simp only [processEvents]
    split
    · exact le_trans (handleEvent_mono db now sys e id) (ih _)
    · exact handleEvent_mono db now sys e id
    · exact handleEvent_mono db now sys e id

theorem run_store_untouched (db : Bool) (now : String) (events : List Event)
    (id : String) :
    ∀ sys : Sys,
      dictGet sys.metrics.input_counts id = none →
      storeGet (processEvents db now sys events).1.store id =
        storeGet sys.store id := by
  induction events with
  | nil => intro sys _; rfl
  | cons e rest ih =>
    intro sys h
    simp only [processEvents]
    split
    · rw [ih _ (handleEvent_get_none db now sys e id h),
        handleEvent_store_untouched db now sys e id h]
    · exact handleEvent_store_untouched db now sys e id h
    · exact handleEvent_store_untouched db now sys e id h

theorem run_presses_getD (db : Bool) (now : String) (id : String)
    (hne : id ≠ "esc") :
    ∀ (ks : List Key) (sys : Sys) (v : Nat),
      (∀ k ∈ ks, keyStr k = id) →
      dictGet sys.metrics.input_counts id = some v →
      dictGet (processEvents db now sys
          (ks.map Event.keyPress)).1.metrics.input_counts id
        = some (v + ks.length) := by
  intro ks
  induction ks with
  | nil => intro sys v _ hv; simpa using hv
  | cons k rest ih =>
    intro sys v hall hv
    have hks : keyStr k = id := hall k (by simp)
    have hkne : ¬ k = Key.named "esc" := by
      intro he
      apply hne
      rw [← hks, he]
      rfl
    have hmem : dictMem sys.metrics.input_counts (keyStr k) = true := by
      rw [hks]
      unfold dictMem
      rw [hv]
      rfl
    have hstep : on_press db now sys k =
        ({ metrics :=
            { sys.metrics with
              input_counts := dictIncr sys.metrics.input_counts id },
           store := sys.store }, [], .cont) := by
      simp only [on_press]
      rw [if_neg hkne, hks] at *
      simp [hmem]
    simp only [List.map_cons, processEvents, handleEvent]
    rw [hstep]
    have hv2 : dictGet (dictIncr sys.metrics.input_counts id) id
        = some (v + 1) := by
      rw [dictGet_dictIncr, if_pos rfl, hv]
      rfl
    have hrec := ih
      ({ metrics :=
          { sys.metrics with
            input_counts := dictIncr sys.metrics.input_counts id },
         store := sys.store }) (v + 1)
      (fun k2 hk2 => hall k2 (by simp [hk2])) hv2
    simp only [hrec]
    congr 1
    simp
    omega

/-! ## The claims -/

/-- C7: Database._initialize_inputs is idempotent: on any store state it
creates a count-0 row exactly for the vocabulary identifiers not yet
present, never overwrites or resets an existing row (left intact even when
its count is non-zero), and running it a second time changes nothing. -/
theorem c7_initialize_inputs_idempotent (s : Store) (t t2 : String)
    (id : String) :
    (∀ p, storeGet s id = some p →
      storeGet (initialize_inputs s t) id = some p)
    ∧ (storeGet s id = none →
      storeGet (initialize_inputs s t) id =
        if id ∈ ALL_INPUTS then some (0, t) else none)
    ∧ initialize_inputs (initialize_inputs s t) t2 = initialize_inputs s t := by
  refine ⟨?_, ?_, ?_⟩
  · intro p hp
    exact initFold_get_some ALL_INPUTS s t id p hp
  · intro hn
    exact initFold_get_none ALL_INPUTS s t id hn
  · show ALL_INPUTS.foldl (fun acc j => insertIfAbsent acc j t2)
      (initialize_inputs s t) = initialize_inputs s t
    apply initFold_fixed
    intro j hj
    show (storeGet (ALL_INPUTS.foldl (fun acc i => insertIfAbsent acc i t) s)
      j).isSome = true
    cases hg : storeGet s j with
    | some p => rw [initFold_get_some ALL_INPUTS s t j p hg]; rfl
    | none => rw [initFold_get_none ALL_INPUTS s t j hg, if_pos hj]; rfl

/-- C7 witness: a store already holding a non-zero count (esc at 7) keeps
it through initialization, and re-running initialization is the
identity. -/
theorem c7_initialize_inputs_idempotent_witness :
    storeGet (initialize_inputs [("esc", 7, "T0")] "T1") "esc"
      = some (7, "T0")
    ∧ initialize_inputs (initialize_inputs [("esc", 7, "T0")] "T1") "T2"
      = initialize_inputs [("esc", 7, "T0")] "T1" :=
  ⟨(c7_initialize_inputs_idempotent [("esc", 7, "T0")] "T1" "T2" "esc").1
      (7, "T0") rfl,
   (c7_initialize_inputs_idempotent [("esc", 7, "T0")] "T1" "T2" "esc").2.2⟩

/-- C8: round-trip persistence: upserting any counter snapshot (a real
dict, so with distinct keys) into a fresh empty store and reading it back
with load_data reproduces exactly the snapshot's identifiers and counts. -/
theorem c8_roundtrip (counts : Dict) (now : String) (hn : nodupKeys counts) :
    load_data (save_data_store [] counts now) = counts := by
  rw [save_fresh counts [] now (fun kv _ => rfl) hn]
  simp only [List.nil_append, load_data, List.map_map]
  have : ((fun r : String × Nat × String => (r.1, r.2.1)) ∘
      fun kv : String × Nat => (kv.1, kv.2, now)) = fun kv => kv := by
    funext kv
    rfl
  rw [this, List.map_id']

/-- C8 witness: a concrete two-entry snapshot survives the round trip. -/
theorem c8_roundtrip_witness :
    load_data (save_data_store [] [("a", 3), ("mouse_left", 2)] "T1")
      = [("a", 3), ("mouse_left", 2)] :=
  c8_roundtrip [("a", 3), ("mouse_left", 2)] "T1" (by decide)

/-- C2 counterexample: merging the loaded data of a store that contains a
row for "zz" — an identifier outside the Vocabulary — inserts "zz" into
the counter table, refuting the claim that identifiers outside the
Vocabulary are ignored and that the table contains no such identifier
after the merge. -/
theorem c2_counterexample :
    dictMem (dictUpdate init_counts (load_data [("zz", 5, "T0")])) "zz"
      = true
    ∧ "zz" ∉ ALL_INPUTS := by
  constructor
  · decide
  · decide

/-- C2 amended: the startup merge `input_counts.update(previous_data)`
gives every identifier present in the loaded data its loaded count —
identifiers outside the Vocabulary are inserted into the table rather
than ignored — and keeps the default 0 exactly for the vocabulary
identifiers absent from the loaded data. -/
theorem c2_merge_amended (prev : Dict) (id : String) (hn : nodupKeys prev) :
    dictGet (dictUpdate init_counts prev) id =
      match dictGet prev id with
      | some v => some v
      | none => dictGet init_counts id :=
  dictUpdate_get init_counts prev id hn

/-- C2 witness: loaded data holding only the non-vocabulary identifier
"zz" leaves it in the merged table with its loaded count. -/
theorem c2_merge_amended_witness :
    dictGet (dictUpdate init_counts [("zz", 5)]) "zz" = some 5 :=
  c2_merge_amended [("zz", 5)] "zz" (by decide)

/-- C6 amended: a key press resolving to an identifier absent from the
counter table (in the normal state the table's domain is the Vocabulary,
so this means an unrecognized identifier) changes no counter and lets
ingestion continue in both implementations, but only input-tracker.py's
on_press emits the unknown-key diagnostic; metric-collector.py's
_on_key_press emits nothing. -/
theorem c6_unknown_key_amended (db : Bool) (now : String) (sys : Sys)
    (k : Key)
    (h1 : dictMem sys.metrics.input_counts (keyStr k) = false)
    (h2 : k ≠ Key.named "esc") :
    on_press db now sys k =
      (sys, [Output.unknownKey (keyStr k)], HandlerResult.cont)
    ∧ on_key_press_mc db now sys k = (sys, [], HandlerResult.cont) := by
  constructor
  · simp [on_press, h1, h2]
  · simp [on_key_press_mc, h1, h2]

/-- C6 witness: the media-play-pause key (resolved identifier
"media_play_pause", not in the Vocabulary) pressed in a fresh session. -/
theorem c6_unknown_key_amended_witness :
    on_press true "T1" sys0 (Key.named "media_play_pause") =
      (sys0, [Output.unknownKey "media_play_pause"], HandlerResult.cont)
    ∧ on_key_press_mc true "T1" sys0 (Key.named "media_play_pause") =
      (sys0, [], HandlerResult.cont) :=
  c6_unknown_key_amended true "T1" sys0 (Key.named "media_play_pause")
    (by decide) (by decide)

/-- C6 counterexample: metric-collector.py's handler prints nothing on an
unknown key — its output trace is empty, so no unknown-input diagnostic is
emitted, refuting the claim for that implementation. -/
theorem c6_counterexample :
    (on_key_press_mc true "T1" sys0 (Key.named "media_play_pause")).2.1
      = ([] : List Output)
    ∧ Output.unknownKey "media_play_pause" ∉
        (on_key_press_mc true "T1" sys0 (Key.named "media_play_pause")).2.1 := by
  constructor
  · decide
  · decide

/-- C5 amended: on the stop key (counter table in its normal state, esc
tracked): if the shutdown flush succeeds the handler ends in os._exit(0),
i.e. exit status 0; if the flush fails, the session summary has already
been printed — it precedes the save in the code — but the exception
escapes the handler, so os._exit(0) is never reached and no completion
status (zero or non-zero) is signalled on that path. -/
theorem c5_shutdown_flush_amended (now : String) (sys : Sys)
    (h : dictMem sys.metrics.input_counts "esc" = true) :
    (on_press true now sys (Key.named "esc")).2.2 = HandlerResult.exited 0
    ∧ summaryOf { sys.metrics with
          input_counts := dictIncr sys.metrics.input_counts "esc" }
        ∈ (on_press false now sys (Key.named "esc")).2.1
    ∧ (on_press false now sys (Key.named "esc")).2.2
        = HandlerResult.raised := by
  refine ⟨?_, ?_, ?_⟩ <;> simp [on_press, h, keyStr]

/-- C5 witness: the success and failure shutdown paths from a fresh
session. -/
theorem c5_shutdown_flush_amended_witness :
    (on_press true "T1" sys0 (Key.named "esc")).2.2 = HandlerResult.exited 0
    ∧ summaryOf { sys0.metrics with
          input_counts := dictIncr sys0.metrics.input_counts "esc" }
        ∈ (on_press false "T1" sys0 (Key.named "esc")).2.1
    ∧ (on_press false "T1" sys0 (Key.named "esc")).2.2
        = HandlerResult.raised :=
  c5_shutdown_flush_amended "T1" sys0 (by decide)

/-- C5 counterexample: with the shutdown flush failing in a fresh session,
the handler result is an escaped exception — in particular the process
does not signal a non-zero completion status as the claim requires. -/
theorem c5_counterexample :
    isNonzeroExit (on_press false "T1" sys0 (Key.named "esc")).2.2 = false
    ∧ (on_press false "T1" sys0 (Key.named "esc")).2.2
        = HandlerResult.raised := by
  constructor
  · decide
  · decide

theorem processEvents_exit (db : Bool) (now : String) (sys : Sys)
    (e : Event) (rest : List Event) (c : Nat)
    (h : (handleEvent db now sys e).2.2 = HandlerResult.exited c) :
    processEvents db now sys (e :: rest) = handleEvent db now sys e := by
  simp only [processEvents]
  split
  · rename_i heq; rw [heq] at h; cases h
  · rename_i c2 heq
    rw [← heq]
  · rename_i heq; rw [heq] at h; cases h

/-- C4 amended: when a key press resolves to the stop key (with esc
tracked, its normal state), the handler first increments the esc counter,
then prints the session summary, THEN synchronously persists the snapshot
(the flush write follows the summary in the effect trace, not the other
way round as claimed), and finally terminates with os._exit(0); no later
event is processed. -/
theorem c4_shutdown_order_amended (now : String) (sys : Sys)
    (rest : List Event)
    (h : dictMem sys.metrics.input_counts "esc" = true) :
    on_press true now sys (Key.named "esc") =
      ({ metrics :=
          { input_counts := dictIncr sys.metrics.input_counts "esc",
            last_updated := some now },
         store := save_data_store sys.store
           (dictIncr sys.metrics.input_counts "esc") now },
       [Output.stopping,
        summaryOf
          { input_counts := dictIncr sys.metrics.input_counts "esc",
            last_updated := sys.metrics.last_updated },
        Output.flushWrite (dictIncr sys.metrics.input_counts "esc") now],
       HandlerResult.exited 0)
    ∧ processEvents true now sys (Event.keyPress (Key.named "esc") :: rest)
        = handleEvent true now sys (Event.keyPress (Key.named "esc")) := by
  have h1 : on_press true now sys (Key.named "esc") =
      ({ metrics :=
          { input_counts := dictIncr sys.metrics.input_counts "esc",
            last_updated := some now },
         store := save_data_store sys.store
           (dictIncr sys.metrics.input_counts "esc") now },
       [Output.stopping,
        summaryOf
          { input_counts := dictIncr sys.metrics.input_counts "esc",
            last_updated := sys.metrics.last_updated },
        Output.flushWrite (dictIncr sys.metrics.input_counts "esc") now],
       HandlerResult.exited 0) := by
    simp [on_press, save_data, h, keyStr]
  refine ⟨h1, processEvents_exit true now sys _ rest 0 ?_⟩
  show (on_press true now sys (Key.named "esc")).2.2 = HandlerResult.exited 0
  rw [h1]

/-- C4 witness: the shutdown sequence from a fresh session, with one more
queued event that is never processed. -/
theorem c4_shutdown_order_amended_witness :
    on_press true "T1" sys0 (Key.named "esc") =
      ({ metrics :=
          { input_counts := dictIncr sys0.metrics.input_counts "esc",
            last_updated := some "T1" },
         store := save_data_store sys0.store
           (dictIncr sys0.metrics.input_counts "esc") "T1" },
       [Output.stopping,
        summaryOf
          { input_counts := dictIncr sys0.metrics.input_counts "esc",
            last_updated := sys0.metrics.last_updated },
        Output.flushWrite (dictIncr sys0.metrics.input_counts "esc") "T1"],
       HandlerResult.exited 0)
    ∧ processEvents true "T1" sys0
        (Event.keyPress (Key.named "esc") :: [Event.keyPress (Key.char "b")])
        = handleEvent true "T1" sys0 (Event.keyPress (Key.named "esc")) :=
  c4_shutdown_order_amended "T1" sys0 [Event.keyPress (Key.char "b")]
    (by decide)

/-- C4 counterexample: in the concrete shutdown trace the session summary
is printed at position 1 and the persistence write happens at position 2 —
the summary precedes the persist, refuting the claimed
persist-then-summary order. -/
theorem c4_counterexample :
    (on_press true "T1" sys0 (Key.named "esc")).2.1.findIdx isSummaryOutput
      = 1
    ∧ (on_press true "T1" sys0 (Key.named "esc")).2.1.findIdx isFlushOutput
      = 2
    ∧ ¬ ((on_press true "T1" sys0 (Key.named "esc")).2.1.findIdx
          isFlushOutput <
        (on_press true "T1" sys0 (Key.named "esc")).2.1.findIdx
          isSummaryOutput) := by
  refine ⟨?_, ?_, ?_⟩ <;> decide

/-- C1 amended: for every vocabulary identifier OTHER THAN the stop key
"esc", starting from a table where its count is 0, a sequence of key-press
events all resolving to it leaves its count exactly at the sequence
length: each press adds 1, none is lost or double-counted.  (For "esc"
itself the property fails: the first press triggers shutdown, so later
presses are never processed — see the counterexample.) -/
theorem c1_press_count_amended (db : Bool) (now : String) (sys : Sys)
    (id : String) (ks : List Key)
    (_h1 : id ∈ ALL_INPUTS) (h2 : id ≠ "esc")
    (h3 : dictGet sys.metrics.input_counts id = some 0)
    (h4 : ∀ k ∈ ks, keyStr k = id) :
    dictGet (processEvents db now sys
        (ks.map Event.keyPress)).1.metrics.input_counts id
      = some ks.length := by
  have hr := run_presses_getD db now id h2 ks sys 0 h4 h3
  simpa using hr

/-- C1 witness: three presses of the a key from a fresh session leave
count 3. -/
theorem c1_press_count_amended_witness :
    dictGet (processEvents true "T1" sys0
        ([Key.char "a", Key.char "a", Key.char "a"].map Event.keyPress)
      ).1.metrics.input_counts "a" = some 3 :=
  c1_press_count_amended true "T1" sys0 "a"
    [Key.char "a", Key.char "a", Key.char "a"]
    (by decide) (by decide) (by decide) (by decide)

/-- C1 counterexample: "esc" is in the Vocabulary and starts at count 0,
and both events of this sequence resolve to it, yet after processing the
count is 1, not 2: the first press exits the process, so the second press
is never processed. -/
theorem c1_counterexample :
    dictGet (processEvents true "T1" sys0
        [Event.keyPress (Key.named "esc"), Event.keyPress (Key.named "esc")]
      ).1.metrics.input_counts "esc" ≠ some 2
    ∧ dictGet (processEvents true "T1" sys0
        [Event.keyPress (Key.named "esc"), Event.keyPress (Key.named "esc")]
      ).1.metrics.input_counts "esc" = some 1 := by
  constructor
  · decide
  · decide

/-- C3 counterexample: in the specified scenario (three a presses, two
left clicks, escape) the printed session summary is mouse 2/0/0 with
totalKeyPresses 4, not 3: the escape press itself is counted before the
summary is printed. -/
theorem c3_counterexample :
    scenarioRun.2.1.filterMap summaryData ≠ [(2, 0, 0, 3)] := by
  decide

set_option maxRecDepth 8000 in
/-- C3 amended: the scenario's summary reports mouse_left=2, mouse_right=0,
mouse_middle=0 and totalKeyPresses=4 (the three a presses plus the escape
press), the process exits with status 0, and the pre-exit flush persists
a=3, esc=1, mouse_left=2, mouse_right=0, mouse_middle=0. -/
theorem c3_scenario_amended :
    scenarioRun.2.1.filterMap summaryData = [(2, 0, 0, 4)]
    ∧ scenarioRun.2.2 = HandlerResult.exited 0
    ∧ storeGet scenarioRun.1.store "a" = some (3, "T1")
    ∧ storeGet scenarioRun.1.store "esc" = some (1, "T1")
    ∧ storeGet scenarioRun.1.store "mouse_left" = some (2, "T1")
    ∧ storeGet scenarioRun.1.store "mouse_right" = some (0, "T1")
    ∧ storeGet scenarioRun.1.store "mouse_middle" = some (0, "T1") := by
  decide

theorem flushLive_nil_muts (ks : List String) (d : Dict) :
    flushLive ks [] d = ks.map fun k => (k, dictGetD d k 0) := by
  induction ks generalizing d with
  | nil => rfl
  | cons k rest ih => simp [flushLive, ih]

theorem map_getD_self (d : Dict) (h : nodupKeys d) :
    (d.map fun kv => (kv.1, dictGetD d kv.1 0)) = d := by
  induction d with
  | nil => rfl
  | cons hd tl ih =>
    obtain ⟨k1, v1⟩ := hd
    have hn0 : k1 ∉ tl.map Prod.fst ∧ (tl.map Prod.fst).Nodup :=
      List.nodup_cons.mp (by simpa [nodupKeys] using h)
    simp only [List.map_cons]
    have hhd : dictGetD ((k1, v1) :: tl) k1 0 = v1 := by
      simp [dictGetD, dictGet]
    rw [hhd]
    have hcong : (tl.map fun kv => (kv.1, dictGetD ((k1, v1) :: tl) kv.1 0))
        = tl.map fun kv => (kv.1, dictGetD tl kv.1 0) := by
      apply List.map_congr_left
      intro kv hkv
      have hne : k1 ≠ kv.1 := by
        intro h2
        exact hn0.1 (h2 ▸ List.mem_map_of_mem Prod.fst hkv)
      simp only [dictGetD, dictGet]
      rw [if_neg hne]
    rw [hcong, ih hn0.2]

/-- C9 amended: save_data takes no lock and copies nothing — it iterates
the live counter table — so only in the absence of concurrent increments
does the flush behave like a point-in-time snapshot: with no interleaved
increment batches, the persisted (identifier, count) pairs are exactly the
table.  With interleaving, the persisted combination can match no
instantaneous state of the table (see the counterexample). -/
theorem c9_flush_amended (d : Dict) (h : nodupKeys d) :
    save_data_live d [] = d := by
  unfold save_data_live
  rw [flushLive_nil_muts, List.map_map]
  exact map_getD_self d h

/-- C9 witness: an uninterleaved flush of a concrete two-entry table
persists exactly that table. -/
theorem c9_flush_amended_witness :
    save_data_live [("a", 1), ("b", 2)] [] = [("a", 1), ("b", 2)] :=
  c9_flush_amended [("a", 1), ("b", 2)] (by decide)

/-- C9 counterexample: one increment batch (shift and shift_r) arriving
between the flush loop's first and second row reads makes save_data
persist shift=0 together with shift_r=1 — a combination of counts the
table never held at any instant, refuting the claimed point-in-time
snapshot under a mutual-exclusion lock. -/
theorem c9_counterexample :
    save_data_live init_counts mexBatches ∉
      liveStates (init_counts.map Prod.fst) mexBatches init_counts := by
  decide

/-- C10: within one session a persisted count never decreases across two
successive successful flushes: after flushing the counter table `c0`
(seeded at startup, a real dict so with distinct keys), processing any
sequence of input events, and flushing the resulting table, every
identifier's persisted count is at least what the first flush wrote. -/
theorem c10_persisted_monotone (s : Store) (c0 : Dict) (lu : Option String)
    (events : List Event) (db : Bool) (now t1 t2 : String) (id : String)
    (hn : nodupKeys c0) :
    storeCountD (save_data_store s c0 t1) id ≤
      storeCountD
        (save_data_store
          (processEvents db now
            { metrics := { input_counts := c0, last_updated := lu },
              store := save_data_store s c0 t1 } events).1.store
          (processEvents db now
            { metrics := { input_counts := c0, last_updated := lu },
              store := save_data_store s c0 t1 } events).1.metrics.input_counts
          t2) id := by
  have hkeys := run_map_fst db now events
    { metrics := { input_counts := c0, last_updated := lu },
      store := save_data_store s c0 t1 }
  have hmono := run_mono db now events id
    { metrics := { input_counts := c0, last_updated := lu },
      store := save_data_store s c0 t1 }
  have hn1 : nodupKeys (processEvents db now
      { metrics := { input_counts := c0, last_updated := lu },
        store := save_data_store s c0 t1 } events).1.metrics.input_counts := by
    unfold nodupKeys
    rw [hkeys]
    exact hn
  cases hg : dictGet c0 id with
  | some v =>
    have hs1 : storeGet (save_data_store s c0 t1) id = some (v, t1) :=
      save_get_some c0 s t1 id v hn hg
    cases hg1 : dictGet (processEvents db now
        { metrics := { input_counts := c0, last_updated := lu },
          store := save_data_store s c0 t1 } events).1.metrics.input_counts
        id with
    | none =>
      exfalso
      have hmem : id ∈ c0.map Prod.fst := by
        by_contra hmem
        rw [(dictGet_eq_none_iff c0 id).2 hmem] at hg
        cases hg
      have := (dictGet_eq_none_iff _ id).1 hg1
      rw [hkeys] at this
      exact this hmem
    | some v2 =>
      have hs2 : storeGet (save_data_store
          (processEvents db now
            { metrics := { input_counts := c0, last_updated := lu },
              store := save_data_store s c0 t1 } events).1.store
          (processEvents db now
            { metrics := { input_counts := c0, last_updated := lu },
              store := save_data_store s c0 t1 } events).1.metrics.input_counts
          t2) id = some (v2, t2) :=
        save_get_some _ _ t2 id v2 hn1 hg1
      unfold storeCountD
      rw [hs1, hs2]
      have hv : v = dictGetD c0 id 0 := by simp [dictGetD, hg]
      have hv2 : v2 = dictGetD (processEvents db now
          { metrics := { input_counts := c0, last_updated := lu },
            store := save_data_store s c0 t1 } events).1.metrics.input_counts
          id 0 := by simp [dictGetD, hg1]
      rw [hv, hv2]
      exact hmono
  | none =>
    have hg1 : dictGet (processEvents db now
        { metrics := { input_counts := c0, last_updated := lu },
          store := save_data_store s c0 t1 } events).1.metrics.input_counts
        id = none := by
      rw [dictGet_eq_none_iff, hkeys]
      exact (dictGet_eq_none_iff c0 id).1 hg
    have hs2 : storeGet (save_data_store
        (processEvents db now
          { metrics := { input_counts := c0, last_updated := lu },
            store := save_data_store s c0 t1 } events).1.store
        (processEvents db now
          { metrics := { input_counts := c0, last_updated := lu },
            store := save_data_store s c0 t1 } events).1.metrics.input_counts
        t2) id = storeGet (save_data_store s c0 t1) id := by
      rw [save_get_none _ _ t2 id hg1]
      exact run_store_untouched db now events id
        { metrics := { input_counts := c0, last_updated := lu },
          store := save_data_store s c0 t1 } hg
    unfold storeCountD
    rw [hs2]

/-- C10 witness: a concrete session — flush a=1, press a once, flush
again — where the persisted count goes from 1 to at least 1 (in fact 2). -/
theorem c10_persisted_monotone_witness :
    storeCountD (save_data_store [] [("a", 1), ("esc", 0)] "T1") "a" ≤
      storeCountD
        (save_data_store
          (processEvents true "TN"
            { metrics :=
                { input_counts := [("a", 1), ("esc", 0)],
                  last_updated := none },
              store := save_data_store [] [("a", 1), ("esc", 0)] "T1" }
            [Event.keyPress (Key.char "a")]).1.store
          (processEvents true "TN"
            { metrics :=
                { input_counts := [("a", 1), ("esc", 0)],
                  last_updated := none },
              store := save_data_store [] [("a", 1), ("esc", 0)] "T1" }
            [Event.keyPress (Key.char "a")]).1.metrics.input_counts
          "T2") "a" :=
  c10_persisted_monotone [] [("a", 1), ("esc", 0)] none
    [Event.keyPress (Key.char "a")] true "TN" "T1" "T2" "a" (by decide)

end MC
